import Mathlib

/-!
Shallow embedding of the concurrent progress-tracking subsystem of
`augments` (`src/augments/lib/progress.py`).

The Python module has three relevant pieces:

* `LoaderStyle` / `FRAMES`: the animation styles and their glyph cycles.
* `ProgressTracker`: shared registry with fields `operations` (a Python
  list of labels, append on `start`, `list.remove` of the current label
  on `stop`), `current` (the displayed label), `_stop` (renderer stop
  flag) and `_thread` (the renderer thread).  All mutations happen under
  one lock, so each `start`/`stop` call and each iteration of the render
  loop is atomic; we model them as pure state transformers on a
  `ProgressTracker` value.  The renderer thread is modelled by the style
  it was started with (`thread : Option LoaderStyle`); joining the thread
  corresponds to setting the field back to `none`.
* `show_parallel_progress`: starts every task, then walks the futures in
  submission order, calling `future.result()` (which blocks, so the
  collection loop is sequential in submission order regardless of
  completion timing) and `stop` on each.  Work functions are modelled as
  pure `Unit → Except String α` values: `Except.ok v` is a normal return
  of `v`, `Except.error e` is a raised exception with message `e`.

Writes to standard output are modelled as a chronological list of
`OutLine` events: `OutLine.term success label` is the terminal line
`"\r{✓|✗} {label}\n"` written by `ProgressTracker.stop`, and
`OutLine.err label msg` is the `print(f"Error in {label}: {msg}")` line
of `show_parallel_progress`.

Python `list.remove` raises `ValueError` when the value is absent; we
model that by `removeFirst` returning `Option` and `stop` returning
`Except String _`.  (In the source the terminal line is written before
the `remove` call, so on a `ValueError` the line would already have been
printed; the error branch of the model elides that line, which is
irrelevant here because we prove the error branch unreachable from any
state satisfying the registry invariant `TrackerInv`.)

The guards `if self.current:` in `stop` and `_animate` are Python
truthiness tests: they are false not only for `None` but also for the
empty string, so a registry whose displayed label is `""` is neither
stopped nor redrawn.  The embedding models this with an explicit
`= ""` test in both functions.  (`if not self._thread:` in `start` is
by contrast a plain is-None test, since a `threading.Thread` object is
always truthy.)
-/

inductive LoaderStyle
  | dots
  | arrow
  | bar
  | pulse
  | moon
  | braille
deriving DecidableEq, Repr

def FRAMES : LoaderStyle → List String
  | LoaderStyle.dots => ["⠋", "⠙", "⠹", "⠸", "⠼", "⠴", "⠦", "⠧", "⠇", "⠏"]
  | LoaderStyle.arrow => ["←", "↖", "↑", "↗", "→", "↘", "↓", "↙"]
  | LoaderStyle.bar => ["█", "▉", "▊", "▋", "▌", "▍", "▎", "▏"]
  | LoaderStyle.pulse => ["◐", "◓", "◑", "◒"]
  | LoaderStyle.moon => ["🌑", "🌒", "🌓", "🌔", "🌕", "🌖", "🌗", "🌘"]
  | LoaderStyle.braille => ["⣾", "⣽", "⣻", "⢿", "⡿", "⣟", "⣯", "⣷"]

/-- An output event on the shared output stream. `term success label`
renders as `"\r{✓|✗} {label}\n"` (the permanent line written by
`ProgressTracker.stop`); `err label msg` renders as
`"Error in {label}: {msg}"` (the line printed by
`show_parallel_progress` for a failed task). -/
inductive OutLine
  | term (success : Bool) (label : String)
  | err (label : String) (msg : String)
deriving DecidableEq, Repr

def OutLine.render : OutLine → String
  | OutLine.term success label =>
      "\r" ++ (if success then "✓" else "✗") ++ " " ++ label ++ "\n"
  | OutLine.err label msg => "Error in " ++ label ++ ": " ++ msg

def OutLine.isErr : OutLine → Bool
  | OutLine.term _ _ => false
  | OutLine.err _ _ => true

/-- State of the `ProgressTracker` registry.  `operations`, `current`
and the `_stop` flag are the Python fields; `thread` replaces the Python
`_thread` field by the animation style the renderer thread was created
with (`none` = no renderer thread). -/
structure ProgressTracker where
  operations : List String
  current : Option String
  stopFlag : Bool
  thread : Option LoaderStyle
deriving DecidableEq, Repr

def ProgressTracker.init : ProgressTracker :=
  ⟨[], none, false, none⟩

/-- `ProgressTracker.start`: append the label, make it current, and if
no renderer thread exists clear the stop flag and create the thread with
the given style (the style is ignored when a thread already runs). -/
def ProgressTracker.start (t : ProgressTracker) (message : String)
    (style : LoaderStyle) : ProgressTracker :=
  { operations := t.operations ++ [message]
    current := some message
    stopFlag := if t.thread.isNone then false else t.stopFlag
    thread := if t.thread.isNone then some style else t.thread }

/-- Remove the first occurrence of `x` (Python `list.remove`); `none`
models the `ValueError` raised when `x` is absent. -/
def removeFirst (x : String) : List String → Option (List String)
  | [] => none
  | y :: ys => if y = x then some ys else (removeFirst x ys).map (fun l => y :: l)

/-- `ProgressTracker.stop`: the guard `if self.current:` is a Python
truthiness test, false both for `None` and for the empty string — a
`stop` whose displayed label is `""` skips the whole write/remove/
promote block.  When the guard holds, write the terminal line for the
current label, remove it from `operations` (first occurrence) and
promote the last remaining label to `current`.  In every non-raising
path the trailing `if not self.operations:` check then sets the stop
flag and joins the renderer thread when `operations` is empty.  Returns
the new state and the lines written; `Except.error` models the
`ValueError` of `list.remove` when the current label is not in
`operations`. -/
def ProgressTracker.stop (t : ProgressTracker) (success : Bool) :
    Except String (ProgressTracker × List OutLine) :=
  match t.current with
  | some cur =>
      if cur = "" then
        let t3 : ProgressTracker :=
          if t.operations.isEmpty then { t with stopFlag := true, thread := none } else t
        Except.ok (t3, [])
      else
        match removeFirst cur t.operations with
        | none => Except.error "ValueError: list.remove(x): x not in list"
        | some ops =>
            let t2 : ProgressTracker :=
              { t with operations := ops, current := ops.getLast? }
            let t3 : ProgressTracker :=
              if ops.isEmpty then { t2 with stopFlag := true, thread := none } else t2
            Except.ok (t3, [OutLine.term success cur])
  | none =>
      let t3 : ProgressTracker :=
        if t.operations.isEmpty then { t with stopFlag := true, thread := none } else t
      Except.ok (t3, [])

/-- One iteration of the render loop body (`ProgressTracker._animate`):
if the stop flag is unset and the current label is truthy (`if
self.current:` — false for `None` and for the empty string), redraw
`"\r{frame} {label}"`; otherwise write nothing. -/
def ProgressTracker.animateStep (t : ProgressTracker) (style : LoaderStyle)
    (i : Nat) : Option String :=
  if t.stopFlag then none
  else
    match t.current with
    | some c =>
        if c = "" then none
        else some ("\r" ++ (FRAMES style).getD (i % (FRAMES style).length) "" ++ " " ++ c)
    | none => none

/-- The submission loop of `show_parallel_progress`: `start` each label
with the default `dots` style (the Python call site passes no style). -/
def startAll {α : Type} (t : ProgressTracker)
    (ops : List (String × (Unit → Except String α))) : ProgressTracker :=
  ops.foldl (fun acc op => acc.start op.1 LoaderStyle.dots) t

/-- The collection loop of `show_parallel_progress`: walk the futures in
submission order; on a successful result append it and `stop` with
success, on a raised error `stop` with failure, print the error line and
append `None`.  Returns (results, output lines, final tracker). -/
def collectResults {α : Type} (t : ProgressTracker) :
    List (String × (Unit → Except String α)) →
    Except String (List (Option α) × List OutLine × ProgressTracker)
  | [] => Except.ok ([], [], t)
  | (msg, work) :: rest =>
      match work () with
      | Except.ok v =>
          match t.stop true with
          | Except.error e => Except.error e
          | Except.ok (t2, lines) =>
              match collectResults t2 rest with
              | Except.error e => Except.error e
              | Except.ok (res, out, t3) =>
                  Except.ok (some v :: res, lines ++ out, t3)
      | Except.error err =>
          match t.stop false with
          | Except.error e => Except.error e
          | Except.ok (t2, lines) =>
              match collectResults t2 rest with
              | Except.error e => Except.error e
              | Except.ok (res, out, t3) =>
                  Except.ok (none :: res, lines ++ [OutLine.err msg err] ++ out, t3)

/-- `show_parallel_progress`, threading the (in Python: global) tracker
explicitly: start every task, then collect results in submission order. -/
def show_parallel_progress {α : Type}
    (ops : List (String × (Unit → Except String α)))
    (t : ProgressTracker) :
    Except String (List (Option α) × List OutLine × ProgressTracker) :=
  collectResults (startAll t ops) ops

/-- Registry invariant: the displayed label is the last element of
`operations` (hence `none` exactly when the list is empty), and when no
operation is active no renderer thread exists. -/
def TrackerInv (t : ProgressTracker) : Prop :=
  t.current = t.operations.getLast? ∧ (t.operations = [] → t.thread = none)

instance (t : ProgressTracker) : Decidable (TrackerInv t) := by
  unfold TrackerInv; infer_instance

/-- A start / stop event on the registry. -/
inductive Event
  | start (msg : String) (style : LoaderStyle)
  | stop (success : Bool)

/-- Run a sequence of registry events from a state, accumulating output. -/
def runEvents : List Event → ProgressTracker →
    Except String (ProgressTracker × List OutLine)
  | [], t => Except.ok (t, [])
  | Event.start msg style :: rest, t => runEvents rest (t.start msg style)
  | Event.stop success :: rest, t =>
      match t.stop success with
      | Except.error e => Except.error e
      | Except.ok (t2, lines) =>
          match runEvents rest t2 with
          | Except.error e => Except.error e
          | Except.ok (t3, out) => Except.ok (t3, lines ++ out)


/-- Concrete example tasks used to exercise the theorems below. -/
def taskA : String × (Unit → Except String Int) := ("A", fun _ => Except.ok 1)

def taskAfail : String × (Unit → Except String Int) :=
  ("A", fun _ => Except.error "division by zero")

def taskBfail : String × (Unit → Except String Int) :=
  ("B", fun _ => Except.error "division by zero")

def taskBok : String × (Unit → Except String Int) := ("B", fun _ => Except.ok 2)

def taskC : String × (Unit → Except String Int) := ("C", fun _ => Except.ok 3)


theorem removeFirst_of_mem {x : String} :
    ∀ {l : List String}, x ∈ l → ∃ l2, removeFirst x l = some l2 := by
  intro l hm
  induction l with
  | nil => simp at hm
  | cons y ys ih =>
      by_cases hyx : y = x
      · exact ⟨ys, by simp [removeFirst, hyx]⟩
      · rcases List.mem_cons.mp hm with hx | hx
        · exact absurd hx.symm hyx
        · obtain ⟨l2, h2⟩ := ih hx
          exact ⟨y :: l2, by simp [removeFirst, hyx, h2]⟩

theorem removeFirst_length {x : String} :
    ∀ {l l2 : List String}, removeFirst x l = some l2 → l2.length + 1 = l.length := by
  intro l
  induction l with
  | nil => intro l2 h; simp [removeFirst] at h
  | cons y ys ih =>
      intro l2 h
      by_cases hyx : y = x
      · simp [removeFirst, hyx] at h
        simp [← h]
      · simp [removeFirst, hyx] at h
        obtain ⟨a, ha, hal⟩ := h
        simp [← hal, ih ha]

theorem start_inv (t : ProgressTracker) (msg : String) (style : LoaderStyle) :
    TrackerInv (t.start msg style) := by
  constructor
  · simp [ProgressTracker.start]
  · intro hop
    simp [ProgressTracker.start] at hop

/-- Behaviour of `stop` from any state satisfying the registry
invariant: it never raises, preserves the invariant, writes no error
line, shuts the renderer down when the set empties, is a no-op on an
empty set, removes exactly one occurrence when the displayed label is
truthy (non-empty), and is a full no-op when the displayed label is the
falsy empty string. -/
theorem stop_spec (t : ProgressTracker) (s : Bool) (h : TrackerInv t) :
    ∃ t2 lines, t.stop s = Except.ok (t2, lines) ∧ TrackerInv t2 ∧
      lines.filter OutLine.isErr = [] ∧
      (t2.operations = [] → t2.stopFlag = true ∧ t2.thread = none) ∧
      (t.operations = [] → t2.operations = t.operations ∧ t2.current = t.current ∧
        t2.thread = t.thread ∧ lines = []) ∧
      (∀ c, t.current = some c → c ≠ "" →
        t2.operations.length + 1 = t.operations.length ∧
        lines = [OutLine.term s c]) ∧
      (t.current = some "" → t2 = t ∧ lines = []) := by
  obtain ⟨hc, hth⟩ := h
  cases hcur : t.current with
  | none =>
      have hop : t.operations = [] := by
        rw [hcur] at hc
        exact List.getLast?_eq_none_iff.mp hc.symm
      refine ⟨{ t with stopFlag := true, thread := none }, [], ?_, ?_, rfl, ?_, ?_, ?_, ?_⟩
      · simp [ProgressTracker.stop, hcur, hop]
      · exact ⟨by simpa [hop] using hcur, fun _ => rfl⟩
      · exact fun _ => ⟨rfl, rfl⟩
      · exact fun _ => ⟨rfl, by simp [hcur], by simp [hth hop], rfl⟩
      · intro c2 hc2
        simp at hc2
      · intro hc2
        simp at hc2
  | some c =>
      have hlast : t.operations.getLast? = some c := by rw [hcur] at hc; exact hc.symm
      have hmem : c ∈ t.operations := List.mem_of_mem_getLast? hlast
      have hne : t.operations ≠ [] := by
        intro h0
        rw [h0] at hmem
        simp at hmem
      by_cases hblank : c = ""
      · subst hblank
        refine ⟨t, [], ?_, ⟨hc, hth⟩, rfl, ?_, ?_, ?_, fun _ => ⟨rfl, rfl⟩⟩
        · simp [ProgressTracker.stop, hcur, List.isEmpty_iff, hne]
        · exact fun h0 => absurd h0 hne
        · exact fun h0 => absurd h0 hne
        · intro c2 hc2 hne2
          injection hc2 with h12
          exact absurd h12.symm hne2
      · obtain ⟨l2, hrem⟩ := removeFirst_of_mem hmem
        have hfalsy : (some c : Option String) = some "" →
            (⟨l2, l2.getLast?, true, none⟩ : ProgressTracker) = t ∧
              ([OutLine.term s c] : List OutLine) = [] := by
          intro h0
          injection h0 with h12
          exact absurd h12 hblank
        have hfalsy2 : (some c : Option String) = some "" →
            (⟨l2, l2.getLast?, t.stopFlag, t.thread⟩ : ProgressTracker) = t ∧
              ([OutLine.term s c] : List OutLine) = [] := by
          intro h0
          injection h0 with h12
          exact absurd h12 hblank
        have hone : ∀ c2, (some c : Option String) = some c2 → c2 ≠ "" →
            l2.length + 1 = t.operations.length ∧
            ([OutLine.term s c] : List OutLine) = [OutLine.term s c2] := by
          intro c2 hc2 _
          injection hc2 with h12
          subst h12
          exact ⟨removeFirst_length hrem, rfl⟩
        by_cases h2 : l2.isEmpty
        · refine ⟨⟨l2, l2.getLast?, true, none⟩, [OutLine.term s c],
              ?_, ?_, rfl, ?_, ?_, hone, hfalsy⟩
          · simp [ProgressTracker.stop, hcur, hblank, hrem, h2]
          · exact ⟨rfl, fun _ => rfl⟩
          · exact fun _ => ⟨rfl, rfl⟩
          · exact fun h0 => absurd h0 hne
        · refine ⟨⟨l2, l2.getLast?, t.stopFlag, t.thread⟩, [OutLine.term s c],
              ?_, ?_, rfl, ?_, ?_, hone, hfalsy2⟩
          · simp [ProgressTracker.stop, hcur, hblank, hrem, h2]
          · refine ⟨rfl, fun h0 => ?_⟩
            rw [List.isEmpty_iff] at h2
            exact absurd h0 h2
          · intro h0
            rw [List.isEmpty_iff] at h2
            exact absurd h0 h2
          · exact fun h0 => absurd h0 hne

theorem startAll_inv {α : Type} :
    ∀ (ops : List (String × (Unit → Except String α))) (t : ProgressTracker),
    TrackerInv t → TrackerInv (startAll t ops) := by
  intro ops
  induction ops with
  | nil => intro t h; exact h
  | cons p rest ih =>
      intro t _
      exact ih (t.start p.1 LoaderStyle.dots) (start_inv t p.1 LoaderStyle.dots)

theorem start_thread_some (t : ProgressTracker) (msg : String) (style s : LoaderStyle)
    (h : t.thread = some s) : (t.start msg style).thread = some s := by
  simp [ProgressTracker.start, h]

theorem startAll_thread_some {α : Type} :
    ∀ (ops : List (String × (Unit → Except String α))) (t : ProgressTracker)
    (s : LoaderStyle), t.thread = some s → (startAll t ops).thread = some s := by
  intro ops
  induction ops with
  | nil => intro t s h; exact h
  | cons p rest ih =>
      intro t s h
      exact ih (t.start p.1 LoaderStyle.dots) s (start_thread_some t p.1 LoaderStyle.dots s h)

theorem runEvents_ok :
    ∀ (evts : List Event) (t : ProgressTracker), TrackerInv t →
    ∃ t2 out, runEvents evts t = Except.ok (t2, out) ∧ TrackerInv t2 := by
  intro evts
  induction evts with
  | nil => intro t h; exact ⟨t, [], rfl, h⟩
  | cons e rest ih =>
      intro t h
      cases e with
      | start msg style =>
          obtain ⟨t2, out, heq, h2⟩ := ih (t.start msg style) (start_inv t msg style)
          exact ⟨t2, out, by simp [runEvents, heq], h2⟩
      | stop s =>
          obtain ⟨t2, lines, hstop, h2, -⟩ := stop_spec t s h
          obtain ⟨t3, out, heq, h3⟩ := ih t2 h2
          exact ⟨t3, lines ++ out, by simp [runEvents, hstop, heq], h3⟩

/-- For a task pair, the value its result slot receives: `some v` when
the work function returns `v`, `none` when it raises. -/
def taskResult {α : Type} (p : String × (Unit → Except String α)) : Option α :=
  (p.2 ()).toOption

/-- For a task pair, the error line its failure prints (labelled with the
pair's own label), or `none` when the task succeeds. -/
def taskErr {α : Type} (p : String × (Unit → Except String α)) : Option OutLine :=
  match p.2 () with
  | Except.ok _ => none
  | Except.error e => some (OutLine.err p.1 e)

/-- Characterisation of the collection loop from any invariant state:
it never raises, the result vector is the map of `taskResult` over the
tasks in submission order, and the error lines in the output are exactly
one per failing task, labelled with that task's own label, in order. -/
theorem collect_spec {α : Type} :
    ∀ (ops : List (String × (Unit → Except String α))) (t : ProgressTracker),
    TrackerInv t →
    ∃ out t2, collectResults t ops = Except.ok (ops.map taskResult, out, t2) ∧
      TrackerInv t2 ∧
      out.filter OutLine.isErr = ops.filterMap taskErr := by
  intro ops
  induction ops with
  | nil => intro t h; exact ⟨[], t, rfl, h, rfl⟩
  | cons p rest ih =>
      intro t h
      obtain ⟨msg, work⟩ := p
      cases hw : work () with
      | ok v =>
          obtain ⟨t2, lines, hstop, h2, hnoerr, -⟩ := stop_spec t true h
          obtain ⟨out, t3, heq, h3, herr⟩ := ih t2 h2
          refine ⟨lines ++ out, t3, ?_, h3, ?_⟩
          · simp [collectResults, hw, hstop, heq, taskResult, Except.toOption]
          · simp [List.filter_append, hnoerr, herr, taskErr, hw]
      | error e =>
          obtain ⟨t2, lines, hstop, h2, hnoerr, -⟩ := stop_spec t false h
          obtain ⟨out, t3, heq, h3, herr⟩ := ih t2 h2
          refine ⟨lines ++ [OutLine.err msg e] ++ out, t3, ?_, h3, ?_⟩
          · simp [collectResults, hw, hstop, heq, taskResult, Except.toOption]
          · simp [List.filter_append, hnoerr, herr, taskErr, hw, OutLine.isErr]

theorem init_inv : TrackerInv ProgressTracker.init := by
  constructor
  · rfl
  · intro _; rfl

/-- C1: for every ordered list of N (label, work) pairs, run from any
state satisfying the registry invariant, `show_parallel_progress`
returns (without raising) a result vector of exactly N entries in
original submission order — the embedding walks the futures in
submission order, so the vector is independent of completion order —
and for each task whose work function returns `v` without raising, slot
`i` of the vector is `some v`. -/
theorem C1_result_vector {α : Type} (ops : List (String × (Unit → Except String α)))
    (t : ProgressTracker) (h : TrackerInv t) :
    ∃ res out t2, show_parallel_progress ops t = Except.ok (res, out, t2) ∧
      res.length = ops.length ∧
      res = ops.map taskResult ∧
      (∀ (i : Nat) (p : String × (Unit → Except String α)) (v : α),
        ops[i]? = some p → p.2 () = Except.ok v → res[i]? = some (some v)) := by
  obtain ⟨out, t2, heq, -, -⟩ := collect_spec ops (startAll t ops) (startAll_inv ops t h)
  refine ⟨ops.map taskResult, out, t2, heq, by simp, rfl, ?_⟩
  intro i p v hp hv
  rw [List.getElem?_map, hp]
  simp [taskResult, hv, Except.toOption]


theorem C1_result_vector_witness :
    ∃ res out t2,
      show_parallel_progress [taskA] ProgressTracker.init = Except.ok (res, out, t2) ∧
      res.length = [taskA].length ∧
      res = [taskA].map taskResult ∧
      (∀ (i : Nat) (p : String × (Unit → Except String Int)) (v : Int),
        [taskA][i]? = some p → p.2 () = Except.ok v → res[i]? = some (some v)) :=
  C1_result_vector [taskA] ProgressTracker.init init_inv
/-- C2: for every submitted task whose work function raises,
`show_parallel_progress` puts `none` in that task's result slot, and the
error lines in the output are exactly the `Error in <label>: <message>`
lines of the failing tasks, one per failing task, each referencing that
task's own label; the exception is never propagated — the overall call
returns the full vector without raising. -/
theorem C2_failure_containment {α : Type} (ops : List (String × (Unit → Except String α)))
    (t : ProgressTracker) (h : TrackerInv t) :
    ∃ res out t2, show_parallel_progress ops t = Except.ok (res, out, t2) ∧
      res.length = ops.length ∧
      out.filter OutLine.isErr = ops.filterMap taskErr ∧
      (∀ (i : Nat) (p : String × (Unit → Except String α)) (e : String),
        ops[i]? = some p → p.2 () = Except.error e →
        res[i]? = some none ∧ taskErr p = some (OutLine.err p.1 e)) := by
  obtain ⟨out, t2, heq, -, herr⟩ := collect_spec ops (startAll t ops) (startAll_inv ops t h)
  refine ⟨ops.map taskResult, out, t2, heq, by simp, herr, ?_⟩
  intro i p e hp he
  constructor
  · rw [List.getElem?_map, hp]
    simp [taskResult, he, Except.toOption]
  · simp [taskErr, he]


theorem C2_failure_containment_witness :
    ∃ res out t2,
      show_parallel_progress [taskBfail] ProgressTracker.init = Except.ok (res, out, t2) ∧
      res.length = [taskBfail].length ∧
      out.filter OutLine.isErr = [taskBfail].filterMap taskErr ∧
      (∀ (i : Nat) (p : String × (Unit → Except String Int)) (e : String),
        [taskBfail][i]? = some p → p.2 () = Except.error e →
        res[i]? = some none ∧ taskErr p = some (OutLine.err p.1 e)) :=
  C2_failure_containment [taskBfail] ProgressTracker.init init_inv

/-- C3: evaluation of the code at the failing input
`[("A", work that raises), ("B", work that returns 2)]`.  `stop` takes
no label and always prints the currently displayed (most recently
started, still active) label, so when task A (which failed) completes
the emitted terminal line is `✗ B`, and when task B (which succeeded)
completes the emitted line is `✓ A`: the terminal lines carry the other
task's label, contradicting the claim that each line carries the
completing task's own label. -/
theorem C3_terminal_label_mismatch :
    show_parallel_progress [taskAfail, taskBok] ProgressTracker.init =
      Except.ok ([none, some 2],
        [OutLine.term false "B", OutLine.err "A" "division by zero",
         OutLine.term true "A"],
        ⟨[], none, true, none⟩) ∧
    ("B" = "A") = False ∧
    OutLine.render (OutLine.term false "B") = "\r✗ B\n" := by
  refine ⟨rfl, by simp, rfl⟩

/-- C4: whenever a `stop` call (from an invariant state) leaves the
operation set empty, the returned state has the renderer stop flag set
and the renderer thread joined (field cleared); and a render-loop
iteration on any invariant state with an empty operation set performs no
redraw. -/
theorem C4_renderer_shutdown :
    (∀ (t t2 : ProgressTracker) (s : Bool) (lines : List OutLine),
      TrackerInv t → t.stop s = Except.ok (t2, lines) → t2.operations = [] →
      t2.stopFlag = true ∧ t2.thread = none) ∧
    (∀ (t : ProgressTracker) (style : LoaderStyle) (i : Nat),
      TrackerInv t → t.operations = [] → t.animateStep style i = none) := by
  constructor
  · intro t t2 s lines h heq hempty
    obtain ⟨t2x, linesx, heqx, -, -, hflag, -, -⟩ := stop_spec t s h
    rw [heq] at heqx
    simp only [Except.ok.injEq, Prod.mk.injEq] at heqx
    obtain ⟨ht2, -⟩ := heqx
    subst ht2
    exact hflag hempty
  · intro t style i h hempty
    have hc : t.current = none := by
      rw [h.1, hempty]
      rfl
    simp [ProgressTracker.animateStep, hc]

theorem C4_renderer_shutdown_witness :
    ((ProgressTracker.mk [] none true none).stopFlag = true ∧
      (ProgressTracker.mk [] none true none).thread = none) ∧
    ProgressTracker.init.animateStep LoaderStyle.dots 0 = none :=
  ⟨C4_renderer_shutdown.1 ⟨["A"], some "A", false, some LoaderStyle.dots⟩
      ⟨[], none, true, none⟩ true [OutLine.term true "A"] (by decide) rfl rfl,
    C4_renderer_shutdown.2 ProgressTracker.init LoaderStyle.dots 0 init_inv rfl⟩

/-- C5: the display invariant — `current` is the last element of the
active operation list, hence `none` exactly when the list is empty, and
when the list is non-empty `current` is one of its elements, namely the
most recently started still-active label; it holds initially, is
preserved by every `start`, and every `stop` from an invariant state
succeeds and re-establishes it (so after a removal, `current` is
promoted to the most recent remaining active label). -/
theorem C5_display_invariant :
    TrackerInv ProgressTracker.init ∧
    (∀ (t : ProgressTracker) (msg : String) (style : LoaderStyle),
      TrackerInv t → TrackerInv (t.start msg style)) ∧
    (∀ (t : ProgressTracker) (s : Bool), TrackerInv t →
      ∃ t2 lines, t.stop s = Except.ok (t2, lines) ∧ TrackerInv t2 ∧
        t2.current = t2.operations.getLast?) ∧
    (∀ t : ProgressTracker, TrackerInv t →
      (t.current = none ↔ t.operations = []) ∧
      ∀ c, t.current = some c →
        t.operations.getLast? = some c ∧ c ∈ t.operations) := by
  refine ⟨init_inv, fun t msg style _ => start_inv t msg style, ?_, ?_⟩
  · intro t s h
    obtain ⟨t2, lines, heq, h2, -, -, -, -⟩ := stop_spec t s h
    exact ⟨t2, lines, heq, h2, h2.1⟩
  · intro t h
    constructor
    · rw [h.1]
      exact List.getLast?_eq_none_iff
    · intro c hc
      have hlast : t.operations.getLast? = some c := by rw [← h.1, hc]
      exact ⟨hlast, List.mem_of_mem_getLast? hlast⟩

theorem C5_display_invariant_witness :
    TrackerInv (ProgressTracker.init.start "A" LoaderStyle.dots) ∧
    ((ProgressTracker.init.start "A" LoaderStyle.dots).current = none ↔
      (ProgressTracker.init.start "A" LoaderStyle.dots).operations = []) :=
  ⟨C5_display_invariant.2.1 ProgressTracker.init "A" LoaderStyle.dots init_inv,
   (C5_display_invariant.2.2.2 (ProgressTracker.init.start "A" LoaderStyle.dots)
      (C5_display_invariant.2.1 ProgressTracker.init "A" LoaderStyle.dots init_inv)).1⟩

/-- C6 counterexample: after `start("")` the active set is the
non-empty `[""]`, but the displayed label `""` is falsy for the
`if self.current:` guard, so the following `stop()` removes nothing —
the set still holds one occurrence afterwards and no line is printed —
refuting the claim that each `stop` removes exactly one occurrence. -/
theorem C6_blank_label_counterexample :
    runEvents [Event.start "" LoaderStyle.dots, Event.stop true] ProgressTracker.init =
      Except.ok (⟨[""], some "", false, some LoaderStyle.dots⟩, []) ∧
    (ProgressTracker.init.start "" LoaderStyle.dots).operations.length = 1 ∧
    (⟨[""], some "", false, some LoaderStyle.dots⟩ : ProgressTracker).operations.length = 1 := by
  exact ⟨rfl, rfl, rfl⟩

/-- C6 (amended): for every sequence of `start` and `stop` calls from
the initial state — including stopping twice and starting duplicate
labels — no `stop` call raises; a `stop` on an empty active set
attempts no removal (the set stays empty and nothing is printed), so
the count is never decremented below zero; a `stop` whose displayed
label is a non-empty string removes exactly one occurrence (the length
drops by exactly one), so duplicate labels do not corrupt the
accounting; and a `stop` whose displayed label is the falsy empty
string removes nothing and leaves the registry unchanged. -/
theorem C6_stop_safety :
    (∀ evts : List Event, ∃ t2 out,
      runEvents evts ProgressTracker.init = Except.ok (t2, out) ∧ TrackerInv t2) ∧
    (∀ (t : ProgressTracker) (s : Bool), TrackerInv t →
      ∃ t2 lines, t.stop s = Except.ok (t2, lines) ∧
        (t.operations = [] → t2.operations = [] ∧ lines = []) ∧
        (∀ c, t.current = some c → c ≠ "" →
          t2.operations.length + 1 = t.operations.length) ∧
        (t.current = some "" → t2 = t ∧ lines = [])) := by
  constructor
  · intro evts
    exact runEvents_ok evts ProgressTracker.init init_inv
  · intro t s h
    obtain ⟨t2, lines, heq, -, -, -, hnoop, hone, hfalsy⟩ := stop_spec t s h
    refine ⟨t2, lines, heq, ?_, fun c hc hb => (hone c hc hb).1, hfalsy⟩
    intro hempty
    obtain ⟨hops, -, -, hlines⟩ := hnoop hempty
    exact ⟨hops.trans hempty, hlines⟩

theorem C6_stop_safety_witness :
    (∃ t2 out,
      runEvents [Event.start "A" LoaderStyle.dots, Event.stop true, Event.stop true]
          ProgressTracker.init = Except.ok (t2, out) ∧ TrackerInv t2) ∧
    (∃ t2 lines,
      (ProgressTracker.init.start "A" LoaderStyle.dots).stop true = Except.ok (t2, lines) ∧
      ((ProgressTracker.init.start "A" LoaderStyle.dots).operations = [] →
        t2.operations = [] ∧ lines = []) ∧
      (∀ c, (ProgressTracker.init.start "A" LoaderStyle.dots).current = some c → c ≠ "" →
        t2.operations.length + 1 =
          (ProgressTracker.init.start "A" LoaderStyle.dots).operations.length) ∧
      ((ProgressTracker.init.start "A" LoaderStyle.dots).current = some "" →
        t2 = ProgressTracker.init.start "A" LoaderStyle.dots ∧ lines = [])) :=
  ⟨C6_stop_safety.1 [Event.start "A" LoaderStyle.dots, Event.stop true, Event.stop true],
   C6_stop_safety.2 (ProgressTracker.init.start "A" LoaderStyle.dots) true (by decide)⟩

/-- C7: a `stop` call when the active operation set is empty (the only
way the code can be asked to stop something not present, since `stop`
takes no label) is a no-op: it does not raise, emits no terminal line,
and leaves the active operation list, the current label and the renderer
thread unchanged. -/
theorem C7_stop_on_empty_noop (t : ProgressTracker) (s : Bool)
    (h : TrackerInv t) (hempty : t.operations = []) :
    ∃ t2, t.stop s = Except.ok (t2, []) ∧
      t2.operations = t.operations ∧ t2.current = t.current ∧
      t2.thread = t.thread := by
  obtain ⟨t2, lines, heq, -, -, -, hnoop, -⟩ := stop_spec t s h
  obtain ⟨hops, hcur, hth, hlines⟩ := hnoop hempty
  subst hlines
  exact ⟨t2, heq, hops, hcur, hth⟩

theorem C7_stop_on_empty_noop_witness :
    ∃ t2, ProgressTracker.init.stop true = Except.ok (t2, []) ∧
      t2.operations = ProgressTracker.init.operations ∧
      t2.current = ProgressTracker.init.current ∧
      t2.thread = ProgressTracker.init.thread :=
  C7_stop_on_empty_noop ProgressTracker.init true init_inv rfl

/-- C8: for the input `[("A", work returning 1), ("B", work raising
"division by zero"), ("C", work returning 3)]` the runner returns the
result vector `[some 1, none, some 3]` and the output contains exactly
one error line, which mentions label "B". -/
theorem C8_end_to_end :
    show_parallel_progress [taskA, taskBfail, taskC] ProgressTracker.init =
      Except.ok ([some 1, none, some 3],
        [OutLine.term true "C", OutLine.term false "B",
         OutLine.err "B" "division by zero", OutLine.term true "A"],
        ⟨[], none, true, none⟩) ∧
    [OutLine.term true "C", OutLine.term false "B",
      OutLine.err "B" "division by zero", OutLine.term true "A"].filter OutLine.isErr =
      [OutLine.err "B" "division by zero"] := by
  exact ⟨rfl, rfl⟩

/-- C9: for the empty input list, `show_parallel_progress` returns the
empty result vector with no output at all, and the tracker — in
particular the renderer-thread field — is left exactly as it was: no
`start` is performed and no renderer thread is created. -/
theorem C9_empty_input (α : Type) (t : ProgressTracker) :
    show_parallel_progress ([] : List (String × (Unit → Except String α))) t =
      Except.ok ([], [], t) ∧
    startAll t ([] : List (String × (Unit → Except String α))) = t :=
  ⟨rfl, rfl⟩

/-- C10: the `style` argument of `start` takes effect only when no
renderer thread exists — if a thread is already running with style `s`,
any later `start` keeps `s` whatever style it passes; and
`show_parallel_progress` (which passes no style) starts every operation
with the default `dots` style, so after its submission loop on a fresh
tracker the renderer thread runs the `dots` frame sequence. -/
theorem C10_style_first_start_only :
    (∀ (t : ProgressTracker) (msg : String) (style s : LoaderStyle),
      t.thread = some s → (t.start msg style).thread = some s) ∧
    (∀ (α : Type) (ops : List (String × (Unit → Except String α))),
      ops ≠ [] → (startAll ProgressTracker.init ops).thread = some LoaderStyle.dots) := by
  constructor
  · exact start_thread_some
  · intro α ops hne
    cases ops with
    | nil => exact absurd rfl hne
    | cons p rest =>
        exact startAll_thread_some rest (ProgressTracker.init.start p.1 LoaderStyle.dots)
          LoaderStyle.dots rfl

theorem C10_style_first_start_only_witness :
    ((ProgressTracker.init.start "A" LoaderStyle.dots).start "B" LoaderStyle.moon).thread =
      some LoaderStyle.dots ∧
    (startAll ProgressTracker.init [taskA]).thread = some LoaderStyle.dots :=
  ⟨C10_style_first_start_only.1 (ProgressTracker.init.start "A" LoaderStyle.dots) "B"
      LoaderStyle.moon LoaderStyle.dots rfl,
   C10_style_first_start_only.2 Int [taskA] (List.cons_ne_nil taskA [])⟩
